import Mathlib

/-!
Shallow embedding of the `rhix_converter` decoder (`src/main.rs`).

The Rust program reads a byte stream (modelled as `List Nat`, one entry per
byte) through the `readle!` macro: every multi-byte field is little-endian and
a short read aborts decoding (`read_exact(..).unwrap()`), which we model as
the error `Err.truncatedInput`.  The `assert!` failures on the header size,
the angle-block size and the observed-block size are modelled as
`Err.formatError`; the `Unknown datatype` abort in `read_data` is
`Err.unknownDatatype`; the checked u16 subtraction and the division by zero
in the observed-block-size validation are `Err.subUnderflow` and
`Err.divByZero` (Rust debug-profile semantics: subtraction overflow and
division by zero both abort, with messages distinct from the asserts).

Floating-point arithmetic (`f32`/`f64`) is modelled over `ℚ`: every scaling
law in the source is an affine rational expression evaluated exactly here.
-/

namespace Rhix

/-- The distinct fatal outcomes of `read_file` / `read_data`. -/
inductive Err where
  | truncatedInput
  | formatError
  | unknownDatatype
  | subUnderflow
  | divByZero
  deriving DecidableEq

deriving instance DecidableEq for Except

/-- Little-endian decode of two bytes (`u16::from_le_bytes`). -/
def le16 (b0 b1 : Nat) : Nat := b0 + 256 * b1

/-- Little-endian decode of four bytes (`u32::from_le_bytes`). -/
def le32 (b0 b1 b2 b3 : Nat) : Nat :=
  b0 + 256 * b1 + 65536 * b2 + 16777216 * b3

/-- Two's-complement reinterpretation of a 32-bit value (`i32`). -/
def toI32 (v : Nat) : Int :=
  if v < 2147483648 then (v : Int) else (v : Int) - 4294967296

/-- `readle!(data, u16)`: read one little-endian `u16` from the front of the
stream; a short read is a truncation error. -/
def readU16 : List Nat → Except Err (Nat × List Nat)
  | b0 :: b1 :: rest => .ok (le16 b0 b1, rest)
  | [_] => .error .truncatedInput
  | [] => .error .truncatedInput

/-- `readle!(data, u16, n)`: read `n` consecutive little-endian `u16`s. -/
def readU16s : Nat → List Nat → Except Err (List Nat × List Nat)
  | 0, d => .ok ([], d)
  | n + 1, d =>
    match readU16 d with
    | .error e => .error e
    | .ok (v, d1) =>
      match readU16s n d1 with
      | .error e => .error e
      | .ok (vs, d2) => .ok (v :: vs, d2)

/-- `read_data(v, data_type)` from `src/main.rs`: the per-moment scaling law.
The wildcard arm (`panic!("Unknown datatype")`) is `Err.unknownDatatype`. -/
def readData (v : Nat) (data_type : String) : Except Err ℚ :=
  match data_type with
  | "R" | "REF" | "VEL" | "ZDR" | "KDP" => .ok (((v : ℚ) - 32768) / 100)
  | "PHI" => .ok (360 * ((v : ℚ) - 32768) / 65535)
  | "RHO" => .ok (2 * ((v : ℚ) - 1) / 65534)
  | "SW" => .ok (((v : ℚ) - 1) / 100)
  | _ => .error .unknownDatatype

/-- The `.map(|v| read_data(v, name)).collect()` step: `read_data` is applied
to every raw sample (also for the quality channel, whose name is `""`). -/
def scaleSamples (name : String) : List Nat → Except Err (List ℚ)
  | [] => .ok []
  | v :: vs =>
    match readData v name with
    | .error e => .error e
    | .ok q =>
      match scaleSamples name vs with
      | .error e => .error e
      | .ok qs => .ok (q :: qs)

/-- The scan parameters extracted by the header decoder in `read_file` and
used by the ray loop.  The nine `use_*` fields are the bits of the
`record_item` moment mask, in the source's fixed order. -/
structure ScanContext where
  start_time : Nat × Nat × Nat × Nat × Nat × Nat
  lat : ℚ
  lon : ℚ
  nyquist : ℚ
  gates : Nat
  gate_res : Nat
  use_r : Nat
  use_dbz : Nat
  use_vel : Nat
  use_zdr : Nat
  use_kdp : Nat
  use_phi : Nat
  use_rho : Nat
  use_w : Nat
  use_quality : Nat
  deriving DecidableEq

/-- The `all_data_types` table from `read_file`, in source order; the quality
channel is the unnamed last entry. -/
def allDataTypes (ctx : ScanContext) : List (Nat × String) :=
  [(ctx.use_r, "R"), (ctx.use_dbz, "REF"), (ctx.use_vel, "VEL"),
   (ctx.use_zdr, "ZDR"), (ctx.use_kdp, "KDP"), (ctx.use_phi, "PHI"),
   (ctx.use_rho, "RHO"), (ctx.use_w, "SW"), (ctx.use_quality, "")]

/-- The divisor of the observed-block-size validation:
`use_r + use_dbz + use_vel + use_zdr + use_kdp + use_phi + use_rho + use_w + use_quality`. -/
def flagSum (ctx : ScanContext) : Nat :=
  ctx.use_r + ctx.use_dbz + ctx.use_vel + ctx.use_zdr + ctx.use_kdp +
    ctx.use_phi + ctx.use_rho + ctx.use_w + ctx.use_quality

/-- One decoded ray: azimuth, the start timestamp copied from the header, and
the moment-name-to-samples mapping (modelled as an association list in the
fixed traversal order of `all_data_types`). -/
structure Ray where
  azimuth : ℚ
  time : Nat × Nat × Nat × Nat × Nat × Nat
  data : List (String × List ℚ)
  deriving DecidableEq

/-- The per-moment sample loop of a ray block: for each entry of
`all_data_types` with a nonzero flag, read `gates` raw `u16` samples, apply
`read_data` to each, and insert the result under the moment's name unless the
name is empty (the quality channel). -/
def readMoments (g : Nat) : List (Nat × String) → List Nat →
    Except Err (List (String × List ℚ) × List Nat)
  | [], d => .ok ([], d)
  | (flag, name) :: tbl, d =>
    if flag ≠ 0 then
      match readU16s g d with
      | .error e => .error e
      | .ok (vs, d1) =>
        match scaleSamples name vs with
        | .error e => .error e
        | .ok qs =>
          match readMoments g tbl d1 with
          | .error e => .error e
          | .ok (ms, d2) => .ok ((if name ≠ "" then (name, qs) :: ms else ms), d2)
    else readMoments g tbl d

/-- One iteration of the ray loop in `read_file`: angle-block size (must be
6), raw azimuth (read, unused), raw elevation, the observed-block-size check
`(observed - 2) / flagSum / 2 == gates` (with its u16 subtraction and
division-by-zero edge cases made explicit, in the order Rust evaluates them),
then the per-moment samples.  The emitted ray's azimuth is
`-(elevation / 100) + 90`. -/
def parseRay (ctx : ScanContext) (d : List Nat) : Except Err (Ray × List Nat) :=
  match readU16 d with
  | .error e => .error e
  | .ok (size, d1) =>
    if size ≠ 6 then .error .formatError
    else
      match readU16 d1 with
      | .error e => .error e
      | .ok (_azimuth, d2) =>
        match readU16 d2 with
        | .error e => .error e
        | .ok (elevation, d3) =>
          match readU16 d3 with
          | .error e => .error e
          | .ok (observed, d4) =>
            if observed < 2 then .error .subUnderflow
            else if flagSum ctx = 0 then .error .divByZero
            else if (observed - 2) / flagSum ctx / 2 ≠ ctx.gates then .error .formatError
            else
              match readMoments ctx.gates (allDataTypes ctx) d4 with
              | .error e => .error e
              | .ok (ms, d5) =>
                .ok (⟨-((elevation : ℚ) / 100) + 90, ctx.start_time, ms⟩, d5)

/-- `readle!(data, u8)`. -/
def readU8 : List Nat → Except Err (Nat × List Nat)
  | b :: rest => .ok (b, rest)
  | [] => .error .truncatedInput

/-- Two's-complement reinterpretation of a 16-bit value (`i16`). -/
def toI16 (v : Nat) : Int :=
  if v < 32768 then (v : Int) else (v : Int) - 65536

/-- `readle!(data, i16)`. -/
def readI16 : List Nat → Except Err (Int × List Nat)
  | b0 :: b1 :: rest => .ok (toI16 (le16 b0 b1), rest)
  | [_] => .error .truncatedInput
  | [] => .error .truncatedInput

/-- `readle!(data, u32)`. -/
def readU32 : List Nat → Except Err (Nat × List Nat)
  | b0 :: b1 :: b2 :: b3 :: rest => .ok (le32 b0 b1 b2 b3, rest)
  | _ => .error .truncatedInput

/-- `readle!(data, i32)`. -/
def readI32 : List Nat → Except Err (Int × List Nat)
  | b0 :: b1 :: b2 :: b3 :: rest => .ok (toI32 (le32 b0 b1 b2 b3), rest)
  | _ => .error .truncatedInput

/-- Little-endian decode of eight bytes (`u64::from_le_bytes`). -/
def le64 (b0 b1 b2 b3 b4 b5 b6 b7 : Nat) : Nat :=
  b0 + 256 * b1 + 65536 * b2 + 16777216 * b3 + 4294967296 * b4 +
    1099511627776 * b5 + 281474976710656 * b6 + 72057594037927936 * b7

/-- `readle!(data, u64)`. -/
def readU64 : List Nat → Except Err (Nat × List Nat)
  | b0 :: b1 :: b2 :: b3 :: b4 :: b5 :: b6 :: b7 :: rest =>
    .ok (le64 b0 b1 b2 b3 b4 b5 b6 b7, rest)
  | _ => .error .truncatedInput

/-- Sequencing of one field read with the rest of a parse (the `let x = readle!(..)`
statement chain of the source, with the abort-on-error of `unwrap`). -/
def pbind {α β : Type} (x : Except Err (α × List Nat))
    (f : α → List Nat → Except Err β) : Except Err β :=
  match x with
  | .error e => .error e
  | .ok (a, d) => f a d

/-- The header decoder of `read_file`: a 2-byte size field that must equal
156, then the remaining 154 bytes of the header, consumed field by field in
the source's order (one `pbind` per source-level `readle!`).  A short read
anywhere in the header is a truncation error. -/
def readHeader (d : List Nat) : Except Err (ScanContext × List Nat) :=
  pbind (readU16 d) fun size d =>
  if size ≠ 156 then .error .formatError else
  pbind (readU16 d) fun _version d =>
  pbind (readU16 d) fun sYr d =>
  pbind (readU8 d) fun sMo d =>
  pbind (readU8 d) fun sDa d =>
  pbind (readU8 d) fun sHr d =>
  pbind (readU8 d) fun sMi d =>
  pbind (readU8 d) fun sSe d =>
  pbind (readU8 d) fun _pad1 d =>
  pbind (readU16 d) fun _eYr d =>
  pbind (readU8 d) fun _eMo d =>
  pbind (readU8 d) fun _eDa d =>
  pbind (readU8 d) fun _eHr d =>
  pbind (readU8 d) fun _eMi d =>
  pbind (readU8 d) fun _eSe d =>
  pbind (readU8 d) fun _pad2 d =>
  pbind (readI16 d) fun _timezone d =>
  pbind (readU16 d) fun _productnumber d =>
  pbind (readU16 d) fun _modeltype d =>
  pbind (readI32 d) fun latRaw d =>
  pbind (readI32 d) fun lonRaw d =>
  pbind (readI32 d) fun _alt d =>
  pbind (readU16 d) fun _azi_offset d =>
  pbind (readU32 d) fun _tx_freq d =>
  pbind (readU16 d) fun _polarization d =>
  pbind (readU16 d) fun _gain_h d =>
  pbind (readU16 d) fun _gain_v d =>
  pbind (readU16 d) fun _half_width_h d =>
  pbind (readU16 d) fun _half_width_v d =>
  pbind (readU16 d) fun _tx_power_h d =>
  pbind (readU16 d) fun _tx_power_v d =>
  pbind (readI16 d) fun _radar_const_h d =>
  pbind (readI16 d) fun _radar_const_v d =>
  pbind (readI16 d) fun _noise_power_h_short d =>
  pbind (readI16 d) fun _noise_power_h_long d =>
  pbind (readI16 d) fun _thresh_power_short d =>
  pbind (readI16 d) fun _thresh_power_long d =>
  pbind (readU16 d) fun _tx_pulse_spec d =>
  pbind (readU16 d) fun _prf_mode d =>
  pbind (readU16 d) fun _prf1 d =>
  pbind (readU16 d) fun _prf2 d =>
  pbind (readU16 d) fun _prf3 d =>
  pbind (readU16 d) fun nyquistRaw d =>
  pbind (readU16 d) fun _sample_num d =>
  pbind (readU16 d) fun _tx_pulse_blind_len d =>
  pbind (readU16 d) fun _short_pulse_width d =>
  pbind (readU16 d) fun _short_pulse_mod_bandwith d =>
  pbind (readU16 d) fun _long_pulse_width d =>
  pbind (readU16 d) fun _long_pulse_mod_bandwidth d =>
  pbind (readU16 d) fun _pulse_switchpoint d =>
  pbind (readU16 d) fun _observation_mode d =>
  pbind (readU16 d) fun _rotation_speed d =>
  pbind (readU16 d) fun _rays d =>
  pbind (readU16 d) fun gates d =>
  pbind (readU16 d) fun gate_res d =>
  pbind (readU16 d) fun _scan_num d =>
  pbind (readU16 d) fun _total_scans d =>
  pbind (readU16 d) fun _rain_intensity_est d =>
  pbind (readU16 d) fun _zr_coeff_b d =>
  pbind (readU16 d) fun _zr_coeff_beta d =>
  pbind (readU16 d) fun _kdp_coeff_a d =>
  pbind (readU16 d) fun _kdp_coeff_b d =>
  pbind (readU16 d) fun _kdp_coeff_c d =>
  pbind (readU16 d) fun _zh_corr d =>
  pbind (readU16 d) fun _zh_corr_b1 d =>
  pbind (readU16 d) fun _zh_corr_b2 d =>
  pbind (readU16 d) fun _zh_corr_d1 d =>
  pbind (readU16 d) fun _zh_corr_d2 d =>
  pbind (readU16 d) fun _air_attenuation d =>
  pbind (readU16 d) fun _rain_thresh d =>
  pbind (readU16 d) fun record_item d =>
  pbind (readU16 d) fun _signal_flag d =>
  pbind (readU16 d) fun _cYr d =>
  pbind (readU8 d) fun _cMo d =>
  pbind (readU8 d) fun _cDa d =>
  pbind (readU8 d) fun _cHr d =>
  pbind (readU8 d) fun _cMi d =>
  pbind (readU8 d) fun _cSe d =>
  pbind (readU8 d) fun _pad3 d =>
  pbind (readU64 d) fun _reserved d =>
  .ok (⟨(sYr, sMo, sDa, sHr, sMi, sSe),
        (latRaw : ℚ) / 100000,
        (lonRaw : ℚ) / 100000,
        (nyquistRaw : ℚ) / 10,
        gates, gate_res,
        record_item &&& 1,
        record_item >>> 1 &&& 1,
        record_item >>> 2 &&& 1,
        record_item >>> 3 &&& 1,
        record_item >>> 4 &&& 1,
        record_item >>> 5 &&& 1,
        record_item >>> 6 &&& 1,
        record_item >>> 7 &&& 1,
        record_item >>> 8 &&& 1⟩, d)

/-! Basic facts about the stream primitives: how many bytes they consume, that
they are insensitive to bytes beyond what they consume, and that cutting the
stream before the consumed point yields a truncation error. -/

theorem readU16_len {d : List Nat} {v : Nat} {r : List Nat}
    (h : readU16 d = .ok (v, r)) : d.length = r.length + 2 := by
  rcases d with _ | ⟨b0, _ | ⟨b1, t⟩⟩ <;> simp [readU16] at h
  obtain ⟨-, rfl⟩ := h
  simp

theorem readU16_err {d : List Nat} {e : Err}
    (h : readU16 d = .error e) : e = .truncatedInput := by
  rcases d with _ | ⟨b0, _ | ⟨b1, t⟩⟩ <;> simp [readU16] at h
  · exact h.symm
  · exact h.symm

theorem readU16_append {d : List Nat} {v : Nat} {r : List Nat}
    (h : readU16 d = .ok (v, r)) (t : List Nat) :
    readU16 (d ++ t) = .ok (v, r ++ t) := by
  rcases d with _ | ⟨b0, _ | ⟨b1, u⟩⟩ <;> simp [readU16] at h ⊢
  obtain ⟨rfl, rfl⟩ := h
  exact ⟨rfl, rfl⟩

theorem readU16_take_lt {d : List Nat} {v : Nat} {r : List Nat} {m : Nat}
    (h : readU16 d = .ok (v, r)) (hm : m < 2) :
    readU16 (d.take m) = .error .truncatedInput := by
  rcases d with _ | ⟨b0, _ | ⟨b1, u⟩⟩ <;> simp [readU16] at h
  interval_cases m <;> simp [readU16]

theorem readU16_take_ge {d : List Nat} {v : Nat} {r : List Nat} {m : Nat}
    (h : readU16 d = .ok (v, r)) (hm : 2 ≤ m) :
    readU16 (d.take m) = .ok (v, r.take (m - 2)) := by
  rcases d with _ | ⟨b0, _ | ⟨b1, u⟩⟩ <;> simp [readU16] at h
  obtain ⟨rfl, rfl⟩ := h
  obtain ⟨m', rfl⟩ : ∃ m', m = m' + 2 := ⟨m - 2, by omega⟩
  simp [readU16]

theorem readU16s_len {n : Nat} {d : List Nat} {vs : List Nat} {r : List Nat}
    (h : readU16s n d = .ok (vs, r)) : d.length = r.length + 2 * n := by
  induction n generalizing d vs r with
  | zero =>
    simp [readU16s] at h
    obtain ⟨-, rfl⟩ := h
    simp
  | succ n ih =>
    rw [readU16s] at h
    split at h
    · simp at h
    · rename_i v d1 h1
      split at h
      · simp at h
      · rename_i vs1 d2 h2
        simp at h
        obtain ⟨-, rfl⟩ := h
        have := readU16_len h1
        have := ih h2
        omega

theorem readU16s_err {n : Nat} {d : List Nat} {e : Err}
    (h : readU16s n d = .error e) : e = .truncatedInput := by
  induction n generalizing d e with
  | zero => simp [readU16s] at h
  | succ n ih =>
    rw [readU16s] at h
    split at h
    · rename_i e1 h1
      simp at h
      exact h ▸ readU16_err h1
    · split at h
      · rename_i h2
        simp at h
        exact h ▸ ih h2
      · simp at h

theorem readU16s_append {n : Nat} {d : List Nat} {vs : List Nat} {r : List Nat}
    (h : readU16s n d = .ok (vs, r)) (t : List Nat) :
    readU16s n (d ++ t) = .ok (vs, r ++ t) := by
  induction n generalizing d vs r with
  | zero =>
    simp [readU16s] at h ⊢
    obtain ⟨rfl, rfl⟩ := h
    exact ⟨rfl, rfl⟩
  | succ n ih =>
    rw [readU16s] at h
    split at h
    · simp at h
    · rename_i v d1 h1
      split at h
      · simp at h
      · rename_i vs1 d2 h2
        simp at h
        obtain ⟨rfl, rfl⟩ := h
        rw [readU16s]
        simp only [readU16_append h1 t, ih h2]

theorem readU16s_take_lt {n : Nat} {d : List Nat} {vs : List Nat} {r : List Nat} {m : Nat}
    (h : readU16s n d = .ok (vs, r)) (hm : m < 2 * n) :
    readU16s n (d.take m) = .error .truncatedInput := by
  induction n generalizing d vs r m with
  | zero => omega
  | succ n ih =>
    rw [readU16s] at h
    split at h
    · simp at h
    · rename_i v d1 h1
      split at h
      · simp at h
      · rename_i vs1 d2 h2
        rcases Nat.lt_or_ge m 2 with h2m | h2m
        · rw [readU16s]
          simp only [readU16_take_lt h1 h2m]
        · have hrec := ih h2 (show m - 2 < 2 * n by omega)
          rw [readU16s]
          simp only [readU16_take_ge h1 h2m, hrec]

theorem readU16s_take_ge {n : Nat} {d : List Nat} {vs : List Nat} {r : List Nat} {m : Nat}
    (h : readU16s n d = .ok (vs, r)) (hm : 2 * n ≤ m) :
    readU16s n (d.take m) = .ok (vs, r.take (m - 2 * n)) := by
  induction n generalizing d vs r m with
  | zero =>
    simp [readU16s] at h ⊢
    obtain ⟨rfl, rfl⟩ := h
    exact ⟨rfl, rfl⟩
  | succ n ih =>
    rw [readU16s] at h
    split at h
    · simp at h
    · rename_i v d1 h1
      split at h
      · simp at h
      · rename_i vs1 d2 h2
        simp at h
        obtain ⟨rfl, rfl⟩ := h
        have hrec := ih h2 (show 2 * n ≤ m - 2 by omega)
        have hidx : m - 2 - 2 * n = m - 2 * (n + 1) := by omega
        rw [hidx] at hrec
        rw [readU16s]
        simp only [readU16_take_ge h1 (show 2 ≤ m by omega), hrec]

theorem readData_err {v : Nat} {name : String} {e : Err}
    (h : readData v name = .error e) : e = .unknownDatatype := by
  unfold readData at h
  split at h <;> simp at h
  exact h.symm

theorem scaleSamples_err {name : String} {l : List Nat} {e : Err}
    (h : scaleSamples name l = .error e) : e = .unknownDatatype := by
  induction l with
  | nil => simp [scaleSamples] at h
  | cons v vs ih =>
    rw [scaleSamples] at h
    split at h
    · rename_i e1 h1
      simp at h
      exact h ▸ readData_err h1
    · split at h
      · rename_i e1 h2
        simp at h
        exact ih (h ▸ h2)
      · simp at h

theorem readMoments_len {g : Nat} {tbl : List (Nat × String)} {d : List Nat}
    {ms : List (String × List ℚ)} {r : List Nat}
    (h : readMoments g tbl d = .ok (ms, r)) : r.length ≤ d.length := by
  induction tbl generalizing d ms r with
  | nil =>
    simp [readMoments] at h
    obtain ⟨-, rfl⟩ := h
    exact le_refl _
  | cons p tbl ih =>
    obtain ⟨flag, name⟩ := p
    rw [readMoments] at h
    split at h
    · split at h
      · simp at h
      · rename_i vs d1 h1
        split at h
        · simp at h
        · rename_i qs h2
          split at h
          · simp at h
          · rename_i ms1 d2 h3
            simp at h
            obtain ⟨-, rfl⟩ := h
            have := readU16s_len h1
            have := ih h3
            omega
    · exact ih h

theorem readMoments_err {g : Nat} {tbl : List (Nat × String)} {d : List Nat} {e : Err}
    (h : readMoments g tbl d = .error e) :
    e = .truncatedInput ∨ e = .unknownDatatype := by
  induction tbl generalizing d e with
  | nil => simp [readMoments] at h
  | cons p tbl ih =>
    obtain ⟨flag, name⟩ := p
    rw [readMoments] at h
    split at h
    · split at h
      · rename_i e1 h1
        simp at h
        exact Or.inl (h ▸ readU16s_err h1)
      · rename_i vs d1 h1
        split at h
        · rename_i e1 h2
          simp at h
          exact Or.inr (h ▸ scaleSamples_err h2)
        · rename_i qs h2
          split at h
          · rename_i e1 h3
            simp at h
            exact h ▸ ih h3
          · simp at h
    · exact ih h

theorem readMoments_append {g : Nat} {tbl : List (Nat × String)} {d : List Nat}
    {ms : List (String × List ℚ)} {r : List Nat}
    (h : readMoments g tbl d = .ok (ms, r)) (t : List Nat) :
    readMoments g tbl (d ++ t) = .ok (ms, r ++ t) := by
  induction tbl generalizing d ms r with
  | nil =>
    simp [readMoments] at h ⊢
    obtain ⟨rfl, rfl⟩ := h
    exact ⟨rfl, rfl⟩
  | cons p tbl ih =>
    obtain ⟨flag, name⟩ := p
    by_cases hf : flag = 0
    · simp only [readMoments, hf, ne_eq, not_true_eq_false, if_false] at h ⊢
      exact ih h
    · rw [readMoments, if_pos hf] at h
      split at h
      · simp at h
      · rename_i vs d1 h1
        split at h
        · simp at h
        · rename_i qs h2
          split at h
          · simp at h
          · rename_i ms1 d2 h3
            simp at h
            obtain ⟨rfl, rfl⟩ := h
            rw [readMoments, if_pos hf]
            simp only [readU16s_append h1 t, h2, ih h3]
            by_cases hn : name = "" <;> simp [hn]

theorem readMoments_take_lt {g : Nat} {tbl : List (Nat × String)} {d : List Nat}
    {ms : List (String × List ℚ)} {r : List Nat} {m : Nat}
    (h : readMoments g tbl d = .ok (ms, r)) (hm : m < d.length - r.length) :
    readMoments g tbl (d.take m) = .error .truncatedInput := by
  induction tbl generalizing d ms r m with
  | nil =>
    simp [readMoments] at h
    obtain ⟨-, rfl⟩ := h
    omega
  | cons p tbl ih =>
    obtain ⟨flag, name⟩ := p
    by_cases hf : flag = 0
    · simp only [readMoments, hf, ne_eq, not_true_eq_false, if_false] at h ⊢
      exact ih h hm
    · rw [readMoments, if_pos hf] at h
      split at h
      · simp at h
      · rename_i vs d1 h1
        split at h
        · simp at h
        · rename_i qs h2
          split at h
          · simp at h
          · rename_i ms1 d2 h3
            simp at h
            obtain ⟨-, rfl⟩ := h
            have hlen1 := readU16s_len h1
            have hlen3 := readMoments_len h3
            rcases Nat.lt_or_ge m (2 * g) with hmg | hmg
            · rw [readMoments, if_pos hf]
              simp only [readU16s_take_lt h1 hmg]
            · have hrec := ih h3 (show m - 2 * g < d1.length - d2.length by omega)
              rw [readMoments, if_pos hf]
              simp only [readU16s_take_ge h1 hmg, h2, hrec]

/-- Computation rule for `parseRay` on a stream with at least the 8 bytes of
the angle sub-block and the observed-block-size field exposed. -/
theorem parseRay_eq (ctx : ScanContext) (s0 s1 a1 a2 e1 e2 o1 o2 : Nat) (tl : List Nat) :
    parseRay ctx (s0 :: s1 :: a1 :: a2 :: e1 :: e2 :: o1 :: o2 :: tl) =
      (if le16 s0 s1 ≠ 6 then .error .formatError
       else if le16 o1 o2 < 2 then .error .subUnderflow
       else if flagSum ctx = 0 then .error .divByZero
       else if (le16 o1 o2 - 2) / flagSum ctx / 2 ≠ ctx.gates then .error .formatError
       else
         match readMoments ctx.gates (allDataTypes ctx) tl with
         | .error e => .error e
         | .ok (ms, d5) =>
           .ok (⟨-((le16 e1 e2 : ℚ) / 100) + 90, ctx.start_time, ms⟩, d5)) := rfl

/-- Inversion of a successful `parseRay`: the stream starts with an 8-byte
angle/size area whose checks all pass, followed by the per-moment samples. -/
theorem parseRay_ok_elim {ctx : ScanContext} {d : List Nat} {r : Ray} {rest : List Nat}
    (h : parseRay ctx d = .ok (r, rest)) :
    ∃ s0 s1 a1 a2 e1 e2 o1 o2 tl ms,
      d = s0 :: s1 :: a1 :: a2 :: e1 :: e2 :: o1 :: o2 :: tl ∧
      le16 s0 s1 = 6 ∧ 2 ≤ le16 o1 o2 ∧ flagSum ctx ≠ 0 ∧
      (le16 o1 o2 - 2) / flagSum ctx / 2 = ctx.gates ∧
      readMoments ctx.gates (allDataTypes ctx) tl = .ok (ms, rest) ∧
      r = ⟨-((le16 e1 e2 : ℚ) / 100) + 90, ctx.start_time, ms⟩ := by
  rcases d with _ | ⟨s0, d⟩
  · simp [parseRay, readU16] at h
  rcases d with _ | ⟨s1, d⟩
  · simp [parseRay, readU16] at h
  rcases d with _ | ⟨a1, d⟩
  · simp only [parseRay, readU16] at h
    split at h <;> simp at h
  rcases d with _ | ⟨a2, d⟩
  · simp only [parseRay, readU16] at h
    split at h <;> simp at h
  rcases d with _ | ⟨e1, d⟩
  · simp only [parseRay, readU16] at h
    split at h <;> simp at h
  rcases d with _ | ⟨e2, d⟩
  · simp only [parseRay, readU16] at h
    split at h <;> simp at h
  rcases d with _ | ⟨o1, d⟩
  · simp only [parseRay, readU16] at h
    split at h <;> simp at h
  rcases d with _ | ⟨o2, tl⟩
  · simp only [parseRay, readU16] at h
    split at h <;> simp at h
  rw [parseRay_eq] at h
  split at h
  · simp at h
  split at h
  · simp at h
  split at h
  · simp at h
  split at h
  · simp at h
  split at h
  · simp at h
  rename_i hs ho hk hg x1 ms1 d5 hmom
  simp at h
  obtain ⟨rfl, rfl⟩ := h
  exact ⟨s0, s1, a1, a2, e1, e2, o1, o2, tl, ms1, rfl, not_ne_iff.mp hs, by omega,
    hk, not_ne_iff.mp hg, hmom, rfl⟩

/-- A successful `parseRay` consumes at least the 8 leading bytes, so the
remaining stream is strictly shorter. -/
theorem parseRay_len {ctx : ScanContext} {d : List Nat} {r : Ray} {rest : List Nat}
    (h : parseRay ctx d = .ok (r, rest)) : rest.length < d.length := by
  obtain ⟨s0, s1, a1, a2, e1, e2, o1, o2, tl, ms, rfl, -, -, -, -, hmom, -⟩ :=
    parseRay_ok_elim h
  have := readMoments_len hmom
  simp only [List.length_cons]
  omega

/-- `parseRay` only looks at the bytes it consumes: appending more input
leaves a successful parse unchanged. -/
theorem parseRay_append {ctx : ScanContext} {d : List Nat} {r : Ray} {rest : List Nat}
    (h : parseRay ctx d = .ok (r, rest)) (t : List Nat) :
    parseRay ctx (d ++ t) = .ok (r, rest ++ t) := by
  obtain ⟨s0, s1, a1, a2, e1, e2, o1, o2, tl, ms, rfl, hs, ho, hk, hg, hmom, rfl⟩ :=
    parseRay_ok_elim h
  have ho2 : ¬ (le16 o1 o2 < 2) := by omega
  simp only [List.cons_append]
  rw [parseRay_eq]
  simp only [hs, ne_eq, not_true_eq_false, if_false, ho2, hk, hg, if_true,
    ite_false, ite_true, not_false_eq_true, readMoments_append hmom t]

/-- Cutting the stream strictly inside a ray block that would otherwise parse
completely turns the parse into a truncation error. -/
theorem parseRay_take {ctx : ScanContext} {b : List Nat} {r : Ray}
    (h : parseRay ctx b = .ok (r, [])) {m : Nat} (hm : m < b.length) :
    parseRay ctx (b.take m) = .error .truncatedInput := by
  obtain ⟨s0, s1, a1, a2, e1, e2, o1, o2, tl, ms, rfl, hs, ho, hk, hg, hmom, -⟩ :=
    parseRay_ok_elim h
  rcases Nat.lt_or_ge m 8 with h8 | h8
  · interval_cases m <;> simp [parseRay, readU16, List.take, hs]
  · obtain ⟨m', rfl⟩ : ∃ m', m = m' + 8 := ⟨m - 8, by omega⟩
    have htk : (s0 :: s1 :: a1 :: a2 :: e1 :: e2 :: o1 :: o2 :: tl).take (m' + 8) =
        s0 :: s1 :: a1 :: a2 :: e1 :: e2 :: o1 :: o2 :: tl.take m' := rfl
    have hm' : m' < tl.length - ([] : List Nat).length := by
      simp only [List.length_cons] at hm
      simp
      omega
    have ho2 : ¬ (le16 o1 o2 < 2) := by omega
    rw [htk, parseRay_eq]
    simp only [hs, ne_eq, not_true_eq_false, if_false, ho2, hk, hg, if_true,
      ite_false, ite_true, not_false_eq_true, readMoments_take_lt hmom hm']

/-- The ray loop of `read_file`: `while !data.is_empty()` decode one ray block
and append the ray; any abort inside a block ends the whole decode with that
error (the Rust program aborts, producing no sweep at all). -/
def decodeRays (ctx : ScanContext) (d : List Nat) : Except Err (List Ray) :=
  if d.isEmpty then .ok []
  else
    match hp : parseRay ctx d with
    | .error e => .error e
    | .ok (r, rest) =>
      match decodeRays ctx rest with
      | .error e => .error e
      | .ok rays => .ok (r :: rays)
termination_by d.length
decreasing_by exact parseRay_len hp

/-- The parameter-table builder of `read_file`: one entry per named moment
with a set flag, carrying `gate_res` as the cell spacing. -/
def paramsTable (ctx : ScanContext) : List (String × ℚ) :=
  (allDataTypes ctx).filterMap fun fn =>
    if fn.1 ≠ 0 ∧ fn.2 ≠ "" then some (fn.2, (ctx.gate_res : ℚ)) else none

/-- The whole decode of `read_file` after decompression: header, parameter
table, then the ray loop on the remainder of the stream. -/
def readFile (d : List Nat) : Except Err (ScanContext × List (String × ℚ) × List Ray) :=
  match readHeader d with
  | .error e => .error e
  | .ok (ctx, rest) =>
    match decodeRays ctx rest with
    | .error e => .error e
    | .ok rays => .ok (ctx, paramsTable ctx, rays)

/-- A byte list that one `parseRay` call consumes exactly and successfully. -/
def FullBlock (ctx : ScanContext) (b : List Nat) : Prop :=
  ∃ r, parseRay ctx b = .ok (r, [])

/-- Context with an empty moment mask (all nine flags clear). -/
def ctx0 : ScanContext :=
  ⟨(0, 0, 0, 0, 0, 0), 0, 0, 0, 0, 0, 0, 0, 0, 0, 0, 0, 0, 0, 0⟩

/-- Context with only the REF flag (mask bit 1) set and one gate. -/
def ctxREF : ScanContext :=
  ⟨(0, 0, 0, 0, 0, 0), 0, 0, 0, 1, 0, 0, 1, 0, 0, 0, 0, 0, 0, 0⟩

/-- Context with only the quality flag (mask bit 8) set and one gate. -/
def ctxQ : ScanContext :=
  ⟨(0, 0, 0, 0, 0, 0), 0, 0, 0, 1, 0, 0, 0, 0, 0, 0, 0, 0, 0, 1⟩

/-- A 156-byte header: size field 156, every other byte zero. -/
def hdr156 : List Nat := 156 :: 0 :: List.replicate 154 0

/-- A complete well-formed ray block for `ctxREF`: angle size 6, azimuth 7,
elevation 9160 (91.60 degrees), observed size 4, one REF sample 32768. -/
def blkREF : List Nat := [6, 0, 7, 0, 200, 35, 4, 0, 0, 128]

/-- The ray decoded from `blkREF`: azimuth `-91.6 + 90 = -1.6` degrees and a
single REF sample scaled to `0` (the azimuth and sample are spelled as the
exact expressions the decoder builds, so that the parse is definitional). -/
def rayREF : Ray :=
  ⟨-((le16 200 35 : ℚ) / 100) + 90, (0, 0, 0, 0, 0, 0),
   [("REF", [((le16 0 128 : ℚ) - 32768) / 100])]⟩

/-- The `ScanContext` decoded from `hdr156` (all fields spelled as the exact
expressions the header decoder builds on all-zero bytes, so that the parse is
definitional; every field is zero). -/
def ctxH : ScanContext :=
  ⟨(le16 0 0, 0, 0, 0, 0, 0),
   (toI32 (le32 0 0 0 0) : ℚ) / 100000,
   (toI32 (le32 0 0 0 0) : ℚ) / 100000,
   (le16 0 0 : ℚ) / 10,
   le16 0 0, le16 0 0,
   le16 0 0 &&& 1, le16 0 0 >>> 1 &&& 1, le16 0 0 >>> 2 &&& 1,
   le16 0 0 >>> 3 &&& 1, le16 0 0 >>> 4 &&& 1, le16 0 0 >>> 5 &&& 1,
   le16 0 0 >>> 6 &&& 1, le16 0 0 >>> 7 &&& 1, le16 0 0 >>> 8 &&& 1⟩

/-! The claims. -/

/-- C1: the claim says that when the quality bit (bit 8) of the moment mask
is set, the ray decoder reads the quality channel's `gate_count` raw samples,
discards them without error and completes the ray.  The code instead pipes
every quality sample through `read_data` with the empty moment name `""`,
which hits the `Unknown datatype` abort: with the quality bit set and
`gate_count = 1`, the well-formed ray block `[6,0, 0,0, 0,0, 4,0, 1,0]`
(angle size 6, observed size `4 = 2 + 2*1*1`, one raw sample) makes the ray
decoder abort instead of completing. -/
theorem C1_quality_bug :
    parseRay ctxQ [6, 0, 0, 0, 0, 0, 4, 0, 1, 0] = .error .unknownDatatype := by
  decide

/-- C2 counterexample: the claim says the block-size validation rejects every
observed size other than `2 + 2 * gate_count * popcount`.  With one REF gate
(`gate_count = 1`, one mask bit) the exact size is `4`, yet a block declaring
observed size `5` is accepted, because the check divides with integer floor
division: `(5 - 2) / 1 / 2 = 1 = gate_count`. -/
theorem C2_cex :
    (parseRay ctxREF [6, 0, 0, 0, 0, 0, 5, 0, 0, 128]).isOk = true ∧
    le16 5 0 ≠ 2 + 2 * ctxREF.gates * flagSum ctxREF := by
  exact ⟨rfl, by decide⟩

/-- C2 amended: for a ray block that reaches the size validation (angle size
6, observed size at least 2, at least one mask bit set), decoding fails with
a `FormatError` iff the floor-division check
`(observed - 2) / flagSum / 2 == gates` fails; the exact size `2 + 2*g*k`
always passes, but so does any other size with the same floor quotient. -/
theorem C2_block_size (ctx : ScanContext) (a1 a2 e1 e2 o1 o2 : Nat) (tl : List Nat)
    (hk : flagSum ctx ≠ 0) (ho : 2 ≤ le16 o1 o2) :
    (parseRay ctx (6 :: 0 :: a1 :: a2 :: e1 :: e2 :: o1 :: o2 :: tl) =
      .error .formatError) ↔
      (le16 o1 o2 - 2) / flagSum ctx / 2 ≠ ctx.gates := by
  rw [parseRay_eq, if_neg (show ¬ (le16 6 0 ≠ 6) by decide),
    if_neg (show ¬ (le16 o1 o2 < 2) by omega), if_neg hk]
  by_cases hg : (le16 o1 o2 - 2) / flagSum ctx / 2 = ctx.gates
  · rw [if_neg (not_not_intro hg)]
    constructor
    · intro hcontra
      exfalso
      cases hmom : readMoments ctx.gates (allDataTypes ctx) tl with
      | error e =>
        rcases readMoments_err hmom with rfl | rfl <;>
          simp only [hmom] at hcontra <;> simp at hcontra
      | ok p =>
        obtain ⟨ms, d5⟩ := p
        simp only [hmom] at hcontra
        simp at hcontra
    · intro hcontra
      exact absurd hg hcontra
  · rw [if_pos hg]
    exact iff_of_true rfl hg

/-- C2 amended, witness: with one REF gate, observed size 3 fails the
floor-division check (`(3 - 2) / 1 / 2 = 0 ≠ 1`), so the block is rejected
with a format error. -/
theorem C2_block_size_w :
    parseRay ctxREF [6, 0, 0, 0, 0, 0, 3, 0] = .error .formatError :=
  (C2_block_size ctxREF 0 0 0 0 3 0 [] (by decide) (by decide)).mpr (by decide)

/-- C3 counterexample: the claim states `read_data(65535, "PHI") = 359.994...`,
but the code's formula `360 * (v - 32768) / 65535` gives
`360 * 32767 / 65535 = 786408/4369 = 179.997...`, which is below 180. -/
theorem C3_cex :
    readData 65535 "PHI" = .ok (786408 / 4369) ∧ ((786408 : ℚ) / 4369) < 180 := by
  constructor
  · rw [show readData 65535 "PHI" = .ok (360 * ((65535 : ℚ) - 32768) / 65535) from rfl]
    norm_num
  · norm_num

/-- C3 amended: the PHI scaling law maps raw sample `v` to
`360 * (v - 32768) / 65535`; in particular `read_data(32768, "PHI") = 0` and
`read_data(65535, "PHI") = 786408/4369 = 179.997...`. -/
theorem C3_phi :
    (∀ v : Nat, readData v "PHI" = .ok (360 * ((v : ℚ) - 32768) / 65535)) ∧
    readData 32768 "PHI" = .ok 0 ∧
    readData 65535 "PHI" = .ok (786408 / 4369) := by
  refine ⟨fun v => rfl, ?_, ?_⟩
  · rw [show readData 32768 "PHI" = .ok (360 * ((32768 : ℚ) - 32768) / 65535) from rfl]
    norm_num
  · rw [show readData 65535 "PHI" = .ok (360 * ((65535 : ℚ) - 32768) / 65535) from rfl]
    norm_num

/-- C4: every successfully decoded ray's emitted azimuth equals
`-(elevation_field / 100) + 90`, where `e1, e2` are the two bytes of the raw
elevation field; the raw azimuth bytes `a1, a2` do not appear in the result,
so the output is independent of them. -/
theorem C4_azimuth (ctx : ScanContext) (s0 s1 a1 a2 e1 e2 : Nat) (tl : List Nat)
    (r : Ray) (rest : List Nat)
    (h : parseRay ctx (s0 :: s1 :: a1 :: a2 :: e1 :: e2 :: tl) = .ok (r, rest)) :
    r.azimuth = -((le16 e1 e2 : ℚ) / 100) + 90 := by
  obtain ⟨s0x, s1x, a1x, a2x, e1x, e2x, o1, o2, tlx, ms, hd, -, -, -, -, -, rfl⟩ :=
    parseRay_ok_elim h
  simp only [List.cons.injEq] at hd
  obtain ⟨-, -, -, -, rfl, rfl, -⟩ := hd
  rfl

/-- C4 witness: decoding `blkREF` (elevation field 9160, i.e. 91.60 degrees)
yields azimuth `-91.6 + 90`. -/
theorem C4_azimuth_w : rayREF.azimuth = -((le16 200 35 : ℚ) / 100) + 90 :=
  C4_azimuth ctxREF 6 0 7 0 200 35 [4, 0, 0, 128] rayREF [] rfl

/-- C5: `read_data` is a pure function of `(raw_value, moment_name)`; for
R, REF, VEL, ZDR and KDP it returns `(v - 32768) / 100` (so REF maps
32768 to 0, 0 to -327.68 and 65535 to 327.67), for RHO it returns
`2 * (v - 1) / 65534` (so 1 maps to 0 and 65535 to 2), and for SW it returns
`(v - 1) / 100`. -/
theorem C5_read_data :
    (∀ v : Nat, readData v "R" = .ok (((v : ℚ) - 32768) / 100)) ∧
    (∀ v : Nat, readData v "REF" = .ok (((v : ℚ) - 32768) / 100)) ∧
    (∀ v : Nat, readData v "VEL" = .ok (((v : ℚ) - 32768) / 100)) ∧
    (∀ v : Nat, readData v "ZDR" = .ok (((v : ℚ) - 32768) / 100)) ∧
    (∀ v : Nat, readData v "KDP" = .ok (((v : ℚ) - 32768) / 100)) ∧
    (∀ v : Nat, readData v "RHO" = .ok (2 * ((v : ℚ) - 1) / 65534)) ∧
    (∀ v : Nat, readData v "SW" = .ok (((v : ℚ) - 1) / 100)) ∧
    readData 32768 "REF" = .ok 0 ∧
    readData 0 "REF" = .ok (-(8192 / 25)) ∧
    readData 65535 "REF" = .ok (32767 / 100) ∧
    readData 1 "RHO" = .ok 0 ∧
    readData 65535 "RHO" = .ok 2 := by
  refine ⟨fun v => rfl, fun v => rfl, fun v => rfl, fun v => rfl, fun v => rfl,
    fun v => rfl, fun v => rfl, ?_, ?_, ?_, ?_, ?_⟩
  · rw [show readData 32768 "REF" = .ok (((32768 : ℚ) - 32768) / 100) from rfl]
    norm_num
  · rw [show readData 0 "REF" = .ok (((0 : ℚ) - 32768) / 100) from rfl]
    norm_num
  · rw [show readData 65535 "REF" = .ok (((65535 : ℚ) - 32768) / 100) from rfl]
    norm_num
  · rw [show readData 1 "RHO" = .ok (2 * ((1 : ℚ) - 1) / 65534) from rfl]
    norm_num
  · rw [show readData 65535 "RHO" = .ok (2 * ((65535 : ℚ) - 1) / 65534) from rfl]
    norm_num


/-! Inversion lemmas for one `pbind` step of the header chain: a successful
parse means the field's bytes were present and the continuation ran on the
stream with those bytes dropped. -/

theorem pbind_u8 {b : Type} {d : List Nat} {f : Nat → List Nat → Except Err b}
    {out : b} (h : pbind (readU8 d) f = .ok out) :
    ∃ v, 1 ≤ d.length ∧ f v (d.drop 1) = .ok out := by
  rcases d with _ | ⟨b0, t⟩
  · simp [pbind, readU8] at h
  · exact ⟨b0, by simp, by simpa [pbind, readU8] using h⟩

theorem pbind_u16 {b : Type} {d : List Nat} {f : Nat → List Nat → Except Err b}
    {out : b} (h : pbind (readU16 d) f = .ok out) :
    ∃ v, 2 ≤ d.length ∧ f v (d.drop 2) = .ok out := by
  rcases d with _ | ⟨b0, _ | ⟨b1, t⟩⟩
  · simp [pbind, readU16] at h
  · simp [pbind, readU16] at h
  · exact ⟨le16 b0 b1, by simp, by simpa [pbind, readU16] using h⟩

theorem pbind_i16 {b : Type} {d : List Nat} {f : Int → List Nat → Except Err b}
    {out : b} (h : pbind (readI16 d) f = .ok out) :
    ∃ v, 2 ≤ d.length ∧ f v (d.drop 2) = .ok out := by
  rcases d with _ | ⟨b0, _ | ⟨b1, t⟩⟩
  · simp [pbind, readI16] at h
  · simp [pbind, readI16] at h
  · exact ⟨toI16 (le16 b0 b1), by simp, by simpa [pbind, readI16] using h⟩

theorem pbind_u32 {b : Type} {d : List Nat} {f : Nat → List Nat → Except Err b}
    {out : b} (h : pbind (readU32 d) f = .ok out) :
    ∃ v, 4 ≤ d.length ∧ f v (d.drop 4) = .ok out := by
  rcases d with _ | ⟨b0, _ | ⟨b1, _ | ⟨b2, _ | ⟨b3, t⟩⟩⟩⟩ <;>
    try simp [pbind, readU32] at h
  exact ⟨le32 b0 b1 b2 b3, by simp, by simpa [pbind, readU32] using h⟩

theorem pbind_i32 {b : Type} {d : List Nat} {f : Int → List Nat → Except Err b}
    {out : b} (h : pbind (readI32 d) f = .ok out) :
    ∃ v, 4 ≤ d.length ∧ f v (d.drop 4) = .ok out := by
  rcases d with _ | ⟨b0, _ | ⟨b1, _ | ⟨b2, _ | ⟨b3, t⟩⟩⟩⟩ <;>
    try simp [pbind, readI32] at h
  exact ⟨toI32 (le32 b0 b1 b2 b3), by simp, by simpa [pbind, readI32] using h⟩

theorem pbind_u64 {b : Type} {d : List Nat} {f : Nat → List Nat → Except Err b}
    {out : b} (h : pbind (readU64 d) f = .ok out) :
    ∃ v, 8 ≤ d.length ∧ f v (d.drop 8) = .ok out := by
  rcases d with
    _ | ⟨b0, _ | ⟨b1, _ | ⟨b2, _ | ⟨b3, _ | ⟨b4, _ | ⟨b5, _ | ⟨b6, _ | ⟨b7, t⟩⟩⟩⟩⟩⟩⟩⟩ <;>
    try simp [pbind, readU64] at h
  exact ⟨le64 b0 b1 b2 b3 b4 b5 b6 b7, by simp, by simpa [pbind, readU64] using h⟩

set_option maxRecDepth 100000 in
/-- C6: the header decoder fails with a `FormatError` whenever the leading
2-byte little-endian size field differs from 156, and on success it consumes
exactly 156 bytes, handing `d.drop 156` to the ray decoder (`readFile`). -/
theorem C6_header (d : List Nat) :
    (∀ s0 s1 r, d = s0 :: s1 :: r → le16 s0 s1 ≠ 156 →
      readHeader d = .error .formatError) ∧
    (∀ ctx rest, readHeader d = .ok (ctx, rest) →
      156 ≤ d.length ∧ rest = d.drop 156) := by
  constructor
  · rintro s0 s1 r rfl hne
    simp only [readHeader, readU16, pbind]
    rw [if_pos hne]
  · intro ctx rest h
    unfold readHeader at h
    obtain ⟨size, _, h⟩ := pbind_u16 h
    split at h
    · exact absurd h (by simp)
    obtain ⟨_, _, h⟩ := pbind_u16 h
    obtain ⟨_, _, h⟩ := pbind_u16 h
    obtain ⟨_, _, h⟩ := pbind_u8 h
    obtain ⟨_, _, h⟩ := pbind_u8 h
    obtain ⟨_, _, h⟩ := pbind_u8 h
    obtain ⟨_, _, h⟩ := pbind_u8 h
    obtain ⟨_, _, h⟩ := pbind_u8 h
    obtain ⟨_, _, h⟩ := pbind_u8 h
    obtain ⟨_, _, h⟩ := pbind_u16 h
    obtain ⟨_, _, h⟩ := pbind_u8 h
    obtain ⟨_, _, h⟩ := pbind_u8 h
    obtain ⟨_, _, h⟩ := pbind_u8 h
    obtain ⟨_, _, h⟩ := pbind_u8 h
    obtain ⟨_, _, h⟩ := pbind_u8 h
    obtain ⟨_, _, h⟩ := pbind_u8 h
    obtain ⟨_, _, h⟩ := pbind_i16 h
    obtain ⟨_, _, h⟩ := pbind_u16 h
    obtain ⟨_, _, h⟩ := pbind_u16 h
    obtain ⟨_, _, h⟩ := pbind_i32 h
    obtain ⟨_, _, h⟩ := pbind_i32 h
    obtain ⟨_, _, h⟩ := pbind_i32 h
    obtain ⟨_, _, h⟩ := pbind_u16 h
    obtain ⟨_, _, h⟩ := pbind_u32 h
    obtain ⟨_, _, h⟩ := pbind_u16 h
    obtain ⟨_, _, h⟩ := pbind_u16 h
    obtain ⟨_, _, h⟩ := pbind_u16 h
    obtain ⟨_, _, h⟩ := pbind_u16 h
    obtain ⟨_, _, h⟩ := pbind_u16 h
    obtain ⟨_, _, h⟩ := pbind_u16 h
    obtain ⟨_, _, h⟩ := pbind_u16 h
    obtain ⟨_, _, h⟩ := pbind_i16 h
    obtain ⟨_, _, h⟩ := pbind_i16 h
    obtain ⟨_, _, h⟩ := pbind_i16 h
    obtain ⟨_, _, h⟩ := pbind_i16 h
    obtain ⟨_, _, h⟩ := pbind_i16 h
    obtain ⟨_, _, h⟩ := pbind_i16 h
    obtain ⟨_, _, h⟩ := pbind_u16 h
    obtain ⟨_, _, h⟩ := pbind_u16 h
    obtain ⟨_, _, h⟩ := pbind_u16 h
    obtain ⟨_, _, h⟩ := pbind_u16 h
    obtain ⟨_, _, h⟩ := pbind_u16 h
    obtain ⟨_, _, h⟩ := pbind_u16 h
    obtain ⟨_, _, h⟩ := pbind_u16 h
    obtain ⟨_, _, h⟩ := pbind_u16 h
    obtain ⟨_, _, h⟩ := pbind_u16 h
    obtain ⟨_, _, h⟩ := pbind_u16 h
    obtain ⟨_, _, h⟩ := pbind_u16 h
    obtain ⟨_, _, h⟩ := pbind_u16 h
    obtain ⟨_, _, h⟩ := pbind_u16 h
    obtain ⟨_, _, h⟩ := pbind_u16 h
    obtain ⟨_, _, h⟩ := pbind_u16 h
    obtain ⟨_, _, h⟩ := pbind_u16 h
    obtain ⟨_, _, h⟩ := pbind_u16 h
    obtain ⟨_, _, h⟩ := pbind_u16 h
    obtain ⟨_, _, h⟩ := pbind_u16 h
    obtain ⟨_, _, h⟩ := pbind_u16 h
    obtain ⟨_, _, h⟩ := pbind_u16 h
    obtain ⟨_, _, h⟩ := pbind_u16 h
    obtain ⟨_, _, h⟩ := pbind_u16 h
    obtain ⟨_, _, h⟩ := pbind_u16 h
    obtain ⟨_, _, h⟩ := pbind_u16 h
    obtain ⟨_, _, h⟩ := pbind_u16 h
    obtain ⟨_, _, h⟩ := pbind_u16 h
    obtain ⟨_, _, h⟩ := pbind_u16 h
    obtain ⟨_, _, h⟩ := pbind_u16 h
    obtain ⟨_, _, h⟩ := pbind_u16 h
    obtain ⟨_, _, h⟩ := pbind_u16 h
    obtain ⟨_, _, h⟩ := pbind_u16 h
    obtain ⟨_, _, h⟩ := pbind_u16 h
    obtain ⟨_, _, h⟩ := pbind_u16 h
    obtain ⟨_, _, h⟩ := pbind_u16 h
    obtain ⟨_, _, h⟩ := pbind_u16 h
    obtain ⟨_, _, h⟩ := pbind_u8 h
    obtain ⟨_, _, h⟩ := pbind_u8 h
    obtain ⟨_, _, h⟩ := pbind_u8 h
    obtain ⟨_, _, h⟩ := pbind_u8 h
    obtain ⟨_, _, h⟩ := pbind_u8 h
    obtain ⟨_, _, h⟩ := pbind_u8 h
    obtain ⟨_, hlen, h⟩ := pbind_u64 h
    simp only [Except.ok.injEq, Prod.mk.injEq] at h
    obtain ⟨-, rfl⟩ := h
    constructor
    · simp only [List.drop_drop, List.length_drop] at hlen
      norm_num at hlen
      omega
    · simp only [List.drop_drop]

/-- C6 witness: a 2-byte stream with size field 0 is rejected with a format
error, and the all-zero 156-byte header is consumed in full (nothing is left
after dropping 156 bytes). -/
theorem C6_header_w :
    readHeader [0, 0] = .error .formatError ∧
    (156 ≤ hdr156.length ∧ ([] : List Nat) = hdr156.drop 156) :=
  ⟨(C6_header [0, 0]).1 0 0 [] rfl (by decide),
   (C6_header hdr156).2 ctxH [] rfl⟩

/-- C7: a stream (after the header) made of fully decodable ray blocks,
followed by a nonempty strict prefix of a further decodable block, makes the
ray decoder fail with a truncation error; the error result carries no rays at
all (the Rust program aborts before pushing the partial ray, and no sweep is
written), so in particular the partial block contributes no ray. -/
theorem C7_truncated (ctx : ScanContext) (bs : List (List Nat)) (b : List Nat)
    (m : Nat) (hbs : ∀ x ∈ bs, FullBlock ctx x) (hb : FullBlock ctx b)
    (hm0 : 0 < m) (hm : m < b.length) :
    decodeRays ctx (bs.flatten ++ b.take m) = .error .truncatedInput := by
  induction bs with
  | nil =>
    obtain ⟨r, hr⟩ := hb
    have htr := parseRay_take hr hm
    have hne : (b.take m).isEmpty = false := by
      cases htk : b.take m with
      | nil =>
        have hlen : (b.take m).length = 0 := by rw [htk]; rfl
        rw [List.length_take] at hlen
        omega
      | cons y ys => rfl
    simp only [List.flatten_nil, List.nil_append]
    rw [decodeRays, hne]
    simp only [Bool.false_eq_true, if_false]
    split
    · rename_i e heq
      rw [htr] at heq
      cases heq
      rfl
    · rename_i r1 rest1 heq
      rw [htr] at heq
      simp at heq
  | cons x bs ih =>
    obtain ⟨rx, hrx⟩ := hbs x (List.mem_cons_self x bs)
    have hlen := parseRay_len hrx
    simp only [List.length_nil] at hlen
    have happ := parseRay_append hrx (bs.flatten ++ b.take m)
    simp only [List.nil_append] at happ
    have hne : (x ++ (bs.flatten ++ b.take m)).isEmpty = false := by
      cases hx : x ++ (bs.flatten ++ b.take m) with
      | nil =>
        have hl2 := congrArg List.length hx
        rw [List.length_append] at hl2
        simp only [List.length_nil] at hl2
        omega
      | cons y ys => rfl
    simp only [List.flatten_cons, List.append_assoc]
    rw [decodeRays, hne]
    simp only [Bool.false_eq_true, if_false]
    split
    · rename_i e heq
      rw [happ] at heq
      simp at heq
    · rename_i r1 rest1 heq
      rw [happ] at heq
      simp only [Except.ok.injEq, Prod.mk.injEq] at heq
      obtain ⟨-, rfl⟩ := heq
      have hrec := ih (fun y hy => hbs y (List.mem_cons_of_mem x hy))
      simp only [hrec]

/-- C7 witness: one full REF block followed by the first 3 bytes of a second
block yields a truncation error. -/
theorem C7_truncated_w :
    decodeRays ctxREF (List.flatten [blkREF] ++ blkREF.take 3) =
      .error .truncatedInput :=
  C7_truncated ctxREF [blkREF] blkREF 3
    (fun x hx => by
      rw [List.mem_singleton] at hx
      exact hx ▸ ⟨rayREF, rfl⟩)
    ⟨rayREF, rfl⟩ (by decide) (by decide)

/-- C8: if the stream is empty right after the header, the ray decoder
terminates without error and yields zero rays. -/
theorem C8_empty_stream (ctx : ScanContext) : decodeRays ctx [] = .ok [] := by
  rw [decodeRays]
  simp

/-- C9: a ray block whose leading 2-byte angle-block-size field is not 6 is
rejected with a format error. -/
theorem C9_angle_size (ctx : ScanContext) (s0 s1 : Nat) (tl : List Nat)
    (h : le16 s0 s1 ≠ 6) :
    parseRay ctx (s0 :: s1 :: tl) = .error .formatError := by
  simp only [parseRay, readU16]
  rw [if_pos h]

/-- C9 witness: angle-block size 7 is rejected. -/
theorem C9_angle_size_w : parseRay ctx0 [7, 0] = .error .formatError :=
  C9_angle_size ctx0 7 0 [] (by decide)

/-- C10: with an all-zero moment mask, a ray block reaching the
observed-block-size validation aborts with a division by zero (the divisor is
the sum of the nine flags), and an observed-block-size value below 2 aborts
with a u16 subtraction underflow (checked, debug-profile Rust arithmetic);
both outcomes are distinct from the `FormatError` of the assert. -/
theorem C10_unchecked_arith (ctx : ScanContext) (a1 a2 e1 e2 o1 o2 : Nat)
    (tl : List Nat) :
    (flagSum ctx = 0 → 2 ≤ le16 o1 o2 →
      parseRay ctx (6 :: 0 :: a1 :: a2 :: e1 :: e2 :: o1 :: o2 :: tl) =
        .error .divByZero) ∧
    (le16 o1 o2 < 2 →
      parseRay ctx (6 :: 0 :: a1 :: a2 :: e1 :: e2 :: o1 :: o2 :: tl) =
        .error .subUnderflow) ∧
    Err.divByZero ≠ Err.formatError ∧ Err.subUnderflow ≠ Err.formatError := by
  refine ⟨fun hk ho => ?_, fun ho => ?_, by decide, by decide⟩
  · rw [parseRay_eq, if_neg (show ¬ (le16 6 0 ≠ 6) by decide),
      if_neg (show ¬ (le16 o1 o2 < 2) by omega), if_pos hk]
  · rw [parseRay_eq, if_neg (show ¬ (le16 6 0 ≠ 6) by decide), if_pos ho]

/-- C10 witness: with the all-zero mask and observed size 2 the decoder hits
the division by zero; with a nonempty mask and observed size 1 it hits the
subtraction underflow. -/
theorem C10_unchecked_arith_w :
    parseRay ctx0 [6, 0, 0, 0, 0, 0, 2, 0] = .error .divByZero ∧
    parseRay ctxREF [6, 0, 0, 0, 0, 0, 1, 0] = .error .subUnderflow :=
  ⟨(C10_unchecked_arith ctx0 0 0 0 0 2 0 []).1 (by decide) (by decide),
   (C10_unchecked_arith ctxREF 0 0 0 0 1 0 []).2.1 (by decide)⟩

end Rhix
